import Mathlib

/-!
Verification of `catenets/models/transformation_utils.py`.

Arrays of shape `(n_samples,)` are embedded as `List ℚ`; numpy elementwise
arithmetic on equal-length arrays becomes `List.zipWith`, and scalar
broadcasting such as `1 - w` becomes `List.map (fun x => 1 - x)`.
`p=None` is embedded as `Option.none`; `onp.full(len(y), 0.5)` becomes
`List.replicate y.length (1/2)`.  Division is ℚ's total division (the
floating-point code never raises on a zero denominator either; it yields
inf/NaN where ℚ yields the junk value 0).  A Python function that may
raise `ValueError`/`KeyError` is embedded as returning `Except String`.
-/

/-- `HT_TRANSFORMATION = 'HT'` -/
def HT_TRANSFORMATION : String := "HT"

/-- `AIPW_TRANSFORMATION = 'AIPW'` -/
def AIPW_TRANSFORMATION : String := "AIPW"

/-- `RA_TRANSFORMATION = 'RA'` -/
def RA_TRANSFORMATION : String := "RA"

/-- `ALL_TRANSFORMATIONS = [HT_TRANSFORMATION, AIPW_TRANSFORMATION, RA_TRANSFORMATION]` -/
def ALL_TRANSFORMATIONS : List String :=
  [HT_TRANSFORMATION, AIPW_TRANSFORMATION, RA_TRANSFORMATION]

/-- `onp.full(n, v)`: a constant array of length `n`. -/
def np_full (n : ℕ) (v : ℚ) : List ℚ := List.replicate n v

/-- numpy broadcast `1 - xs` of a scalar against an array. -/
def oneMinus (xs : List ℚ) : List ℚ := xs.map (fun x => 1 - x)

/--
`aipw_te_transformation(y, w, p, mu_0, mu_1)`:
if `p is None` then `p = onp.full(len(y), 0.5)`;
`w_1 = w / p`; `w_0 = (1 - w) / (1 - p)`;
returns `(w_1 - w_0) * y + ((1 - w_1) * mu_1 - (1 - w_0) * mu_0)`.
-/
def aipw_te_transformation (y w : List ℚ) (p : Option (List ℚ))
    (mu_0 mu_1 : List ℚ) : List ℚ :=
  let p := p.getD (np_full y.length (1/2))
  let w_1 := List.zipWith (· / ·) w p
  let w_0 := List.zipWith (· / ·) (oneMinus w) (oneMinus p)
  List.zipWith (· + ·)
    (List.zipWith (· * ·) (List.zipWith (· - ·) w_1 w_0) y)
    (List.zipWith (· - ·)
      (List.zipWith (· * ·) (oneMinus w_1) mu_1)
      (List.zipWith (· * ·) (oneMinus w_0) mu_0))

/--
`ht_te_transformation(y, w, p, mu_0=None, mu_1=None)`:
if `p is None` then `p = onp.full(len(y), 0.5)`;
returns `(w / p - (1 - w) / (1 - p)) * y`.  `mu_0`, `mu_1` are unused
placeholders.
-/
def ht_te_transformation (y w : List ℚ) (p : Option (List ℚ))
    (mu_0 mu_1 : List ℚ) : List ℚ :=
  let p := p.getD (np_full y.length (1/2))
  List.zipWith (· * ·)
    (List.zipWith (· - ·)
      (List.zipWith (· / ·) w p)
      (List.zipWith (· / ·) (oneMinus w) (oneMinus p)))
    y

/--
`ra_te_transformation(y, w, p, mu_0, mu_1)`:
returns `w * (y - mu_0) + (1 - w) * (mu_1 - y)`.  `p` is an unused
placeholder.
-/
def ra_te_transformation (y w : List ℚ) (p : Option (List ℚ))
    (mu_0 mu_1 : List ℚ) : List ℚ :=
  List.zipWith (· + ·)
    (List.zipWith (· * ·) w (List.zipWith (· - ·) y mu_0))
    (List.zipWith (· * ·) (oneMinus w) (List.zipWith (· - ·) mu_1 y))

/-- The common type of the three transformation functions. -/
def TransFn : Type :=
  List ℚ → List ℚ → Option (List ℚ) → List ℚ → List ℚ → List ℚ

/--
`TRANSFORMATION_DICT = {HT: ht_te_transformation, RA: ra_te_transformation,
AIPW: aipw_te_transformation}`, embedded as an association list in the
source's insertion order.
-/
def TRANSFORMATION_DICT : List (String × TransFn) :=
  [(HT_TRANSFORMATION, ht_te_transformation),
   (RA_TRANSFORMATION, ra_te_transformation),
   (AIPW_TRANSFORMATION, aipw_te_transformation)]

/--
`_get_transformation_function(transformation_name)`: raises `ValueError`
(embedded as `Except.error` carrying the message) when the name is not in
`ALL_TRANSFORMATIONS`; otherwise indexes `TRANSFORMATION_DICT` (a failed
dictionary index would be a `KeyError`, embedded as a distinct error).
-/
def _get_transformation_function (transformation_name : String) :
    Except String TransFn :=
  if transformation_name ∉ ALL_TRANSFORMATIONS then
    Except.error
      ("Parameter first stage should be in catenets.models.transformations.ALL_TRANSFORMATIONS. You passed "
        ++ transformation_name)
  else
    match TRANSFORMATION_DICT.lookup transformation_name with
    | some f => Except.ok f
    | none => Except.error "KeyError"

section Helpers

/-- Elementwise reading of `zipWith` through `getD` (in-bounds case). -/
lemma getD_zipWith (f : ℚ → ℚ → ℚ) :
    ∀ (a b : List ℚ) (i : ℕ), i < a.length → i < b.length →
      (List.zipWith f a b).getD i 0 = f (a.getD i 0) (b.getD i 0)
  | _ :: _, _ :: _, 0, _, _ => rfl
  | x :: xs, z :: zs, i + 1, ha, hb => by
      simpa using getD_zipWith f xs zs i (by simpa using ha) (by simpa using hb)

/-- Elementwise reading of `map` through `getD` (in-bounds case). -/
lemma getD_map (g : ℚ → ℚ) :
    ∀ (a : List ℚ) (i : ℕ), i < a.length →
      (a.map g).getD i 0 = g (a.getD i 0)
  | _ :: _, 0, _ => rfl
  | x :: xs, i + 1, ha => by
      simpa using getD_map g xs i (by simpa using ha)

/-- Elementwise reading of `replicate` through `getD` (in-bounds case). -/
lemma getD_replicate_of_lt (v : ℚ) :
    ∀ (n i : ℕ), i < n → (List.replicate n v).getD i 0 = v
  | n + 1, 0, _ => rfl
  | n + 1, i + 1, h => by
      rw [List.replicate_succ]
      simpa using getD_replicate_of_lt v n i (by omega)

lemma oneMinus_length (xs : List ℚ) : (oneMinus xs).length = xs.length := by
  simp [oneMinus]

lemma oneMinus_getD (xs : List ℚ) (i : ℕ) (h : i < xs.length) :
    (oneMinus xs).getD i 0 = 1 - xs.getD i 0 :=
  getD_map (fun x => 1 - x) xs i h

/-- Length of the HT transformation result. -/
lemma ht_length (y w : List ℚ) (p : Option (List ℚ)) (mu_0 mu_1 : List ℚ)
    (n : ℕ) (hy : y.length = n) (hw : w.length = n)
    (hp : ∀ q, p = some q → q.length = n) :
    (ht_te_transformation y w p mu_0 mu_1).length = n := by
  cases p with
  | none =>
      simp only [ht_te_transformation, Option.getD_none, np_full]
      simp [List.length_zipWith, oneMinus_length, hy, hw]
  | some q =>
      have hq := hp q rfl
      simp only [ht_te_transformation, Option.getD_some]
      simp [List.length_zipWith, oneMinus_length, hy, hw, hq]

/-- Length of the AIPW transformation result. -/
lemma aipw_length (y w : List ℚ) (p : Option (List ℚ)) (mu_0 mu_1 : List ℚ)
    (n : ℕ) (hy : y.length = n) (hw : w.length = n)
    (hp : ∀ q, p = some q → q.length = n)
    (h0 : mu_0.length = n) (h1 : mu_1.length = n) :
    (aipw_te_transformation y w p mu_0 mu_1).length = n := by
  cases p with
  | none =>
      simp only [aipw_te_transformation, Option.getD_none, np_full]
      simp [List.length_zipWith, oneMinus_length, hy, hw, h0, h1]
  | some q =>
      have hq := hp q rfl
      simp only [aipw_te_transformation, Option.getD_some]
      simp [List.length_zipWith, oneMinus_length, hy, hw, hq, h0, h1]

/-- Length of the RA transformation result. -/
lemma ra_length (y w : List ℚ) (p : Option (List ℚ)) (mu_0 mu_1 : List ℚ)
    (n : ℕ) (hy : y.length = n) (hw : w.length = n)
    (h0 : mu_0.length = n) (h1 : mu_1.length = n) :
    (ra_te_transformation y w p mu_0 mu_1).length = n := by
  simp [ra_te_transformation, List.length_zipWith, oneMinus_length, hy, hw, h0, h1]

end Helpers

section Pointwise

/-- With `p` absent, HT substitutes the constant propensity array `0.5`. -/
lemma ht_none_eq (y w mu_0 mu_1 : List ℚ) :
    ht_te_transformation y w none mu_0 mu_1
      = ht_te_transformation y w (some (np_full y.length (1/2))) mu_0 mu_1 := rfl

/-- With `p` absent, AIPW substitutes the constant propensity array `0.5`. -/
lemma aipw_none_eq (y w mu_0 mu_1 : List ℚ) :
    aipw_te_transformation y w none mu_0 mu_1
      = aipw_te_transformation y w (some (np_full y.length (1/2))) mu_0 mu_1 := rfl

/-- Elementwise value of the HT transformation, explicit propensities. -/
lemma ht_getD_some (y w q mu_0 mu_1 : List ℚ) (n i : ℕ)
    (hy : y.length = n) (hw : w.length = n) (hq : q.length = n) (hi : i < n) :
    (ht_te_transformation y w (some q) mu_0 mu_1).getD i 0 =
      (w.getD i 0 / q.getD i 0 - (1 - w.getD i 0) / (1 - q.getD i 0)) * y.getD i 0 := by
  have hwl : i < w.length := by omega
  have hql : i < q.length := by omega
  have hyl : i < y.length := by omega
  have h1 : i < (List.zipWith (· / ·) w q).length := by
    simp [List.length_zipWith]; omega
  have h2 : i < (List.zipWith (· / ·) (oneMinus w) (oneMinus q)).length := by
    simp [List.length_zipWith, oneMinus_length]; omega
  have h3 : i < (List.zipWith (· - ·) (List.zipWith (· / ·) w q)
      (List.zipWith (· / ·) (oneMinus w) (oneMinus q))).length := by
    simp [List.length_zipWith, oneMinus_length]; omega
  simp only [ht_te_transformation, Option.getD_some]
  rw [getD_zipWith _ _ _ _ h3 hyl, getD_zipWith _ _ _ _ h1 h2,
      getD_zipWith _ _ _ _ hwl hql,
      getD_zipWith _ _ _ _ (by rwa [oneMinus_length]) (by rwa [oneMinus_length]),
      oneMinus_getD _ _ hwl, oneMinus_getD _ _ hql]

/-- Elementwise value of the AIPW transformation, explicit propensities. -/
lemma aipw_getD_some (y w q mu_0 mu_1 : List ℚ) (n i : ℕ)
    (hy : y.length = n) (hw : w.length = n) (hq : q.length = n)
    (h0 : mu_0.length = n) (h1 : mu_1.length = n) (hi : i < n) :
    (aipw_te_transformation y w (some q) mu_0 mu_1).getD i 0 =
      (w.getD i 0 / q.getD i 0 - (1 - w.getD i 0) / (1 - q.getD i 0)) * y.getD i 0
        + ((1 - w.getD i 0 / q.getD i 0) * mu_1.getD i 0
            - (1 - (1 - w.getD i 0) / (1 - q.getD i 0)) * mu_0.getD i 0) := by
  have hwl : i < w.length := by omega
  have hql : i < q.length := by omega
  have hyl : i < y.length := by omega
  have h0l : i < mu_0.length := by omega
  have h1l : i < mu_1.length := by omega
  have hw1 : i < (List.zipWith (· / ·) w q).length := by
    simp [List.length_zipWith]; omega
  have hw0 : i < (List.zipWith (· / ·) (oneMinus w) (oneMinus q)).length := by
    simp [List.length_zipWith, oneMinus_length]; omega
  have hsub : i < (List.zipWith (· - ·) (List.zipWith (· / ·) w q)
      (List.zipWith (· / ·) (oneMinus w) (oneMinus q))).length := by
    simp [List.length_zipWith, oneMinus_length]; omega
  have hleft : i < (List.zipWith (· * ·) (List.zipWith (· - ·)
      (List.zipWith (· / ·) w q)
      (List.zipWith (· / ·) (oneMinus w) (oneMinus q))) y).length := by
    simp [List.length_zipWith, oneMinus_length]; omega
  have hm1 : i < (List.zipWith (· * ·) (oneMinus (List.zipWith (· / ·) w q))
      mu_1).length := by
    simp [List.length_zipWith, oneMinus_length]; omega
  have hm0 : i < (List.zipWith (· * ·)
      (oneMinus (List.zipWith (· / ·) (oneMinus w) (oneMinus q))) mu_0).length := by
    simp [List.length_zipWith, oneMinus_length]; omega
  have hright : i < (List.zipWith (· - ·)
      (List.zipWith (· * ·) (oneMinus (List.zipWith (· / ·) w q)) mu_1)
      (List.zipWith (· * ·)
        (oneMinus (List.zipWith (· / ·) (oneMinus w) (oneMinus q))) mu_0)).length := by
    simp [List.length_zipWith, oneMinus_length]; omega
  simp only [aipw_te_transformation, Option.getD_some]
  rw [getD_zipWith _ _ _ _ hleft hright,
      getD_zipWith _ _ _ _ hsub hyl,
      getD_zipWith _ _ _ _ hw1 hw0,
      getD_zipWith _ _ _ _ hwl hql,
      getD_zipWith _ _ _ _ (by rwa [oneMinus_length]) (by rwa [oneMinus_length]),
      getD_zipWith _ _ _ _ hm1 hm0,
      getD_zipWith _ _ _ _ (by rwa [oneMinus_length]) h1l,
      getD_zipWith _ _ _ _ (by rwa [oneMinus_length]) h0l,
      oneMinus_getD _ _ hw1, oneMinus_getD _ _ hw0,
      getD_zipWith _ _ _ _ hwl hql,
      getD_zipWith _ _ _ _ (by rwa [oneMinus_length]) (by rwa [oneMinus_length]),
      oneMinus_getD _ _ hwl, oneMinus_getD _ _ hql]

/-- Elementwise value of the RA transformation (for any `p`). -/
lemma ra_getD (y w : List ℚ) (p : Option (List ℚ)) (mu_0 mu_1 : List ℚ) (n i : ℕ)
    (hy : y.length = n) (hw : w.length = n)
    (h0 : mu_0.length = n) (h1 : mu_1.length = n) (hi : i < n) :
    (ra_te_transformation y w p mu_0 mu_1).getD i 0 =
      w.getD i 0 * (y.getD i 0 - mu_0.getD i 0)
        + (1 - w.getD i 0) * (mu_1.getD i 0 - y.getD i 0) := by
  have hwl : i < w.length := by omega
  have hyl : i < y.length := by omega
  have h0l : i < mu_0.length := by omega
  have h1l : i < mu_1.length := by omega
  have ha : i < (List.zipWith (· * ·) w (List.zipWith (· - ·) y mu_0)).length := by
    simp [List.length_zipWith]; omega
  have hb : i < (List.zipWith (· * ·) (oneMinus w)
      (List.zipWith (· - ·) mu_1 y)).length := by
    simp [List.length_zipWith, oneMinus_length]; omega
  have hc : i < (List.zipWith (· - ·) y mu_0).length := by
    simp [List.length_zipWith]; omega
  have hd : i < (List.zipWith (· - ·) mu_1 y).length := by
    simp [List.length_zipWith]; omega
  simp only [ra_te_transformation]
  rw [getD_zipWith _ _ _ _ ha hb,
      getD_zipWith _ _ _ _ hwl hc,
      getD_zipWith _ _ _ _ hyl h0l,
      getD_zipWith _ _ _ _ (by rwa [oneMinus_length]) hd,
      getD_zipWith _ _ _ _ h1l hyl,
      oneMinus_getD _ _ hwl]

end Pointwise

section RegistryClaims

/-- C1: `_get_transformation_function` errors exactly on names outside
`ALL_TRANSFORMATIONS`, and on the three valid identifiers returns the
corresponding transformation function itself (as a reference, uninvoked). -/
theorem get_transformation_function_spec :
    (∀ name : String, name ∉ ALL_TRANSFORMATIONS →
        ∃ e, _get_transformation_function name = Except.error e)
    ∧ (∀ name : String, name ∈ ALL_TRANSFORMATIONS →
        ∃ f, _get_transformation_function name = Except.ok f)
    ∧ _get_transformation_function "HT" = Except.ok ht_te_transformation
    ∧ _get_transformation_function "AIPW" = Except.ok aipw_te_transformation
    ∧ _get_transformation_function "RA" = Except.ok ra_te_transformation := by
  refine ⟨?_, ?_, rfl, rfl, rfl⟩
  · intro name h
    exact ⟨"Parameter first stage should be in catenets.models.transformations.ALL_TRANSFORMATIONS. You passed "
      ++ name, by simp [_get_transformation_function, h]⟩
  · intro name h
    simp [ALL_TRANSFORMATIONS, HT_TRANSFORMATION, AIPW_TRANSFORMATION,
      RA_TRANSFORMATION] at h
    rcases h with h | h | h <;> subst h <;> exact ⟨_, rfl⟩

/-- C5: on a name outside the closed set, the raised error's message names the
offending value (it is the final segment of the message) and names the set of
valid identifiers (`ALL_TRANSFORMATIONS`). -/
theorem get_transformation_function_error_message (name : String)
    (h : name ∉ ALL_TRANSFORMATIONS) :
    _get_transformation_function name =
      Except.error
        ("Parameter first stage should be in catenets.models.transformations.ALL_TRANSFORMATIONS. You passed "
          ++ name) := by
  simp [_get_transformation_function, h]

/-- C5 witness: the error for `"bogus"` contains the offending value. -/
theorem get_transformation_function_error_message_witness :
    ("bogus" ∉ ALL_TRANSFORMATIONS)
    ∧ _get_transformation_function "bogus" =
        Except.error
          ("Parameter first stage should be in catenets.models.transformations.ALL_TRANSFORMATIONS. You passed bogus") :=
  ⟨by decide, (get_transformation_function_error_message "bogus" (by decide)).trans rfl⟩

/-- C9: `ALL_TRANSFORMATIONS` and the keys of `TRANSFORMATION_DICT` agree on
exactly the same set of names, so once the membership test passes the
dictionary lookup inside `_get_transformation_function` cannot fail (the
`KeyError` branch is unreachable). -/
theorem all_transformations_are_dict_keys :
    (∀ name : String,
        name ∈ ALL_TRANSFORMATIONS ↔ (TRANSFORMATION_DICT.lookup name).isSome = true)
    ∧ (∀ name : String, name ∈ ALL_TRANSFORMATIONS →
        ∃ f, _get_transformation_function name = Except.ok f)
    ∧ (∀ name : String, _get_transformation_function name ≠ Except.error "KeyError") := by
  have hmem : ∀ name : String, name ∈ ALL_TRANSFORMATIONS ↔
      (name = "HT" ∨ name = "AIPW" ∨ name = "RA") := by
    intro name
    simp [ALL_TRANSFORMATIONS, HT_TRANSFORMATION, AIPW_TRANSFORMATION,
      RA_TRANSFORMATION]
  have hok : ∀ name : String, name ∈ ALL_TRANSFORMATIONS →
      ∃ f, _get_transformation_function name = Except.ok f := by
    intro name h
    rcases (hmem name).1 h with h | h | h <;> subst h <;> exact ⟨_, rfl⟩
  have hlook : ∀ name : String, (TRANSFORMATION_DICT.lookup name).isSome = true ↔
      (name = "HT" ∨ name = "AIPW" ∨ name = "RA") := by
    intro name
    by_cases h1 : name = "HT"
    · subst h1; simp [TRANSFORMATION_DICT, List.lookup, HT_TRANSFORMATION]
    by_cases h2 : name = "RA"
    · subst h2
      simp [TRANSFORMATION_DICT, List.lookup, HT_TRANSFORMATION, RA_TRANSFORMATION]
    by_cases h3 : name = "AIPW"
    · subst h3
      simp [TRANSFORMATION_DICT, List.lookup, HT_TRANSFORMATION, RA_TRANSFORMATION,
        AIPW_TRANSFORMATION]
    · have e1 : (name == "HT") = false := by simp [h1]
      have e2 : (name == "RA") = false := by simp [h2]
      have e3 : (name == "AIPW") = false := by simp [h3]
      simp [TRANSFORMATION_DICT, List.lookup, HT_TRANSFORMATION, RA_TRANSFORMATION,
        AIPW_TRANSFORMATION, e1, e2, e3, h1, h2, h3]
  refine ⟨fun name => (hmem name).trans (hlook name).symm, hok, ?_⟩
  · intro name heq
    by_cases h : name ∈ ALL_TRANSFORMATIONS
    · rcases hok name h with ⟨f, hf⟩
      rw [hf] at heq
      exact Except.noConfusion heq
    · rw [get_transformation_function_error_message name h,
        Except.error.injEq] at heq
      have hlen := congrArg String.length heq
      rw [String.length_append] at hlen
      have hplen : ("Parameter first stage should be in catenets.models.transformations.ALL_TRANSFORMATIONS. You passed ").length = 99 := by decide
      have hklen : ("KeyError").length = 8 := by decide
      omega

end RegistryClaims

section TransformationClaims

/-- C3: elementwise, HT returns `(w/p - (1-w)/(1-p)) * y`; with `p` absent a
constant propensity `0.5` is substituted, giving `2y` on treated units
(`w = 1`) and `-2y` on controls (`w = 0`). -/
theorem ht_te_transformation_spec (y w q mu_0 mu_1 : List ℚ) (n i : ℕ)
    (hy : y.length = n) (hw : w.length = n) (hq : q.length = n) (hi : i < n) :
    ((ht_te_transformation y w (some q) mu_0 mu_1).getD i 0 =
        (w.getD i 0 / q.getD i 0 - (1 - w.getD i 0) / (1 - q.getD i 0))
          * y.getD i 0)
    ∧ ((ht_te_transformation y w none mu_0 mu_1).getD i 0 =
        (w.getD i 0 / (1/2) - (1 - w.getD i 0) / (1 - 1/2)) * y.getD i 0)
    ∧ (w.getD i 0 = 1 →
        (ht_te_transformation y w none mu_0 mu_1).getD i 0 = 2 * y.getD i 0)
    ∧ (w.getD i 0 = 0 →
        (ht_te_transformation y w none mu_0 mu_1).getD i 0 = (-2) * y.getD i 0) := by
  have hyl : i < y.length := by omega
  have hrep : (np_full y.length (1/2)).length = n := by simp [np_full, hy]
  have hnone := ht_getD_some y w (np_full y.length (1/2)) mu_0 mu_1 n i hy hw hrep hi
  simp only [np_full] at hnone
  rw [getD_replicate_of_lt (1/2) y.length i hyl] at hnone
  rw [← np_full, ← ht_none_eq] at hnone
  refine ⟨ht_getD_some y w q mu_0 mu_1 n i hy hw hq hi, hnone, ?_, ?_⟩
  · intro hw1
    rw [hnone, hw1]
    norm_num
  · intro hw0
    rw [hnone, hw0]
    norm_num

/-- C3 witness: `n = 1`, `y = [3]`, `w = [1]`, `p = [1/4]`: with explicit
propensities the HT value is `(1/(1/4) - 0/(3/4)) * 3 = 12`; with `p` absent
and `w = 1` it is `2 * 3 = 6`. -/
theorem ht_te_transformation_spec_witness :
    ([(3:ℚ)] : List ℚ).length = 1 ∧ ([(1:ℚ)] : List ℚ).length = 1
    ∧ ([(1:ℚ)/4] : List ℚ).length = 1 ∧ 0 < 1
    ∧ (ht_te_transformation [3] [1] (some [1/4]) [] []).getD 0 0 = 12
    ∧ (ht_te_transformation [3] [1] none [] []).getD 0 0 = 6 := by
  have H := ht_te_transformation_spec [3] [1] [1/4] [] [] 1 0 rfl rfl rfl (by norm_num)
  refine ⟨rfl, rfl, rfl, by norm_num, ?_, ?_⟩
  · rw [H.1]; norm_num [List.getD_cons_zero]
  · rw [H.2.2.1 rfl]; norm_num [List.getD_cons_zero]

/-- C2: elementwise, AIPW returns
`(w1 - w0) * y + (1 - w1) * mu_1 - (1 - w0) * mu_0` with `w1 = w/p` and
`w0 = (1-w)/(1-p)`; with `p` absent the same formula is evaluated at
`p = 1/2`. -/
theorem aipw_te_transformation_spec (y w q mu_0 mu_1 : List ℚ) (n i : ℕ)
    (hy : y.length = n) (hw : w.length = n) (hq : q.length = n)
    (h0 : mu_0.length = n) (h1 : mu_1.length = n) (hi : i < n) :
    ((aipw_te_transformation y w (some q) mu_0 mu_1).getD i 0 =
        (w.getD i 0 / q.getD i 0 - (1 - w.getD i 0) / (1 - q.getD i 0))
            * y.getD i 0
          + (1 - w.getD i 0 / q.getD i 0) * mu_1.getD i 0
          - (1 - (1 - w.getD i 0) / (1 - q.getD i 0)) * mu_0.getD i 0)
    ∧ ((aipw_te_transformation y w none mu_0 mu_1).getD i 0 =
        (w.getD i 0 / (1/2) - (1 - w.getD i 0) / (1 - 1/2)) * y.getD i 0
          + (1 - w.getD i 0 / (1/2)) * mu_1.getD i 0
          - (1 - (1 - w.getD i 0) / (1 - 1/2)) * mu_0.getD i 0) := by
  have hyl : i < y.length := by omega
  have hrep : (np_full y.length (1/2)).length = n := by simp [np_full, hy]
  have hnone := aipw_getD_some y w (np_full y.length (1/2)) mu_0 mu_1 n i
    hy hw hrep h0 h1 hi
  simp only [np_full] at hnone
  rw [getD_replicate_of_lt (1/2) y.length i hyl] at hnone
  rw [← np_full, ← aipw_none_eq] at hnone
  constructor
  · rw [aipw_getD_some y w q mu_0 mu_1 n i hy hw hq h0 h1 hi]
    ring
  · rw [hnone]
    ring

/-- C2 witness: `n = 2`, `i = 0`, `y = [1,2]`, `w = [1,0]`, `p = [1/4,1/2]`,
`mu_0 = [3,4]`, `mu_1 = [5,6]`: the AIPW value is `-14` with explicit
propensities and `-6` with `p` absent. -/
theorem aipw_te_transformation_spec_witness :
    ([(1:ℚ), 2] : List ℚ).length = 2 ∧ ([(1:ℚ), 0] : List ℚ).length = 2
    ∧ ([(1:ℚ)/4, 1/2] : List ℚ).length = 2 ∧ ([(3:ℚ), 4] : List ℚ).length = 2
    ∧ ([(5:ℚ), 6] : List ℚ).length = 2 ∧ 0 < 2
    ∧ (aipw_te_transformation [1, 2] [1, 0] (some [1/4, 1/2]) [3, 4] [5, 6]).getD 0 0
        = -14
    ∧ (aipw_te_transformation [1, 2] [1, 0] none [3, 4] [5, 6]).getD 0 0 = -6 := by
  have H := aipw_te_transformation_spec [1, 2] [1, 0] [1/4, 1/2] [3, 4] [5, 6] 2 0
    rfl rfl rfl rfl rfl (by norm_num)
  refine ⟨rfl, rfl, rfl, rfl, rfl, by norm_num, ?_, ?_⟩
  · rw [H.1]; norm_num [List.getD_cons_zero]
  · rw [H.2]; norm_num [List.getD_cons_zero]

/-- C4: elementwise, RA returns `w * (y - mu_0) + (1 - w) * (mu_1 - y)` for
any `p`; on treated units (`w = 1`) this is `y - mu_0` and on controls
(`w = 0`) it is `mu_1 - y`.  The definition of `ra_te_transformation`
performs no division, so the value is defined for all inputs. -/
theorem ra_te_transformation_spec (y w : List ℚ) (p : Option (List ℚ))
    (mu_0 mu_1 : List ℚ) (n i : ℕ)
    (hy : y.length = n) (hw : w.length = n)
    (h0 : mu_0.length = n) (h1 : mu_1.length = n) (hi : i < n) :
    ((ra_te_transformation y w p mu_0 mu_1).getD i 0 =
        w.getD i 0 * (y.getD i 0 - mu_0.getD i 0)
          + (1 - w.getD i 0) * (mu_1.getD i 0 - y.getD i 0))
    ∧ (w.getD i 0 = 1 →
        (ra_te_transformation y w p mu_0 mu_1).getD i 0 =
          y.getD i 0 - mu_0.getD i 0)
    ∧ (w.getD i 0 = 0 →
        (ra_te_transformation y w p mu_0 mu_1).getD i 0 =
          mu_1.getD i 0 - y.getD i 0) := by
  have h := ra_getD y w p mu_0 mu_1 n i hy hw h0 h1 hi
  refine ⟨h, ?_, ?_⟩
  · intro hw1
    rw [h, hw1]
    ring
  · intro hw0
    rw [h, hw0]
    ring

/-- C4 witness: `n = 1`, `y = [5]`, `w = [1]`, `mu_0 = [2]`, `mu_1 = [9]`,
`p` absent: the RA value is `5 - 2 = 3`. -/
theorem ra_te_transformation_spec_witness :
    ([(5:ℚ)] : List ℚ).length = 1 ∧ ([(1:ℚ)] : List ℚ).length = 1
    ∧ ([(2:ℚ)] : List ℚ).length = 1 ∧ ([(9:ℚ)] : List ℚ).length = 1 ∧ 0 < 1
    ∧ (ra_te_transformation [5] [1] none [2] [9]).getD 0 0 = 3 := by
  have H := ra_te_transformation_spec [5] [1] none [2] [9] 1 0 rfl rfl rfl rfl
    (by norm_num)
  exact ⟨rfl, rfl, rfl, rfl, by norm_num, by rw [H.1]; norm_num [List.getD_cons_zero]⟩

end TransformationClaims

section RemainingClaims

/-- C6: for every `n ≥ 0` and aligned length-`n` inputs (`p` a length-`n`
array or absent), all three transformations return arrays of length exactly
`n`. -/
theorem transformation_output_length (n : ℕ) (y w : List ℚ)
    (p : Option (List ℚ)) (mu_0 mu_1 : List ℚ)
    (hy : y.length = n) (hw : w.length = n)
    (h0 : mu_0.length = n) (h1 : mu_1.length = n)
    (hp : ∀ q, p = some q → q.length = n) :
    (ht_te_transformation y w p mu_0 mu_1).length = n
    ∧ (aipw_te_transformation y w p mu_0 mu_1).length = n
    ∧ (ra_te_transformation y w p mu_0 mu_1).length = n :=
  ⟨ht_length y w p mu_0 mu_1 n hy hw hp,
   aipw_length y w p mu_0 mu_1 n hy hw hp h0 h1,
   ra_length y w p mu_0 mu_1 n hy hw h0 h1⟩

/-- C6 witness: at `n = 2` with `p` present, all three outputs have length 2. -/
theorem transformation_output_length_witness :
    ([(1:ℚ), 2] : List ℚ).length = 2 ∧ ([(1:ℚ), 0] : List ℚ).length = 2
    ∧ ([(3:ℚ), 4] : List ℚ).length = 2 ∧ ([(5:ℚ), 6] : List ℚ).length = 2
    ∧ (∀ q, (some [(1:ℚ)/3, 1/2] : Option (List ℚ)) = some q → q.length = 2)
    ∧ (ht_te_transformation [1, 2] [1, 0] (some [1/3, 1/2]) [3, 4] [5, 6]).length = 2
    ∧ (aipw_te_transformation [1, 2] [1, 0] (some [1/3, 1/2]) [3, 4] [5, 6]).length = 2
    ∧ (ra_te_transformation [1, 2] [1, 0] (some [1/3, 1/2]) [3, 4] [5, 6]).length = 2 := by
  have hp : ∀ q, (some [(1:ℚ)/3, 1/2] : Option (List ℚ)) = some q → q.length = 2 := by
    intro q hq
    cases hq
    rfl
  have H := transformation_output_length 2 [1, 2] [1, 0] (some [1/3, 1/2]) [3, 4]
    [5, 6] rfl rfl rfl rfl hp
  exact ⟨rfl, rfl, rfl, rfl, hp, H.1, H.2.1, H.2.2⟩

/-- C7: HT's output does not depend on the placeholder arguments `mu_0`,
`mu_1`, and RA's output does not depend on the placeholder argument `p`. -/
theorem placeholder_arguments_never_read (y w : List ℚ)
    (p p2 : Option (List ℚ)) (mu_0 mu_1 mu_02 mu_12 : List ℚ) :
    ht_te_transformation y w p mu_0 mu_1 = ht_te_transformation y w p mu_02 mu_12
    ∧ ra_te_transformation y w p mu_0 mu_1 = ra_te_transformation y w p2 mu_0 mu_1 :=
  ⟨rfl, rfl⟩

/-- C8: the three transformations are deterministic pure functions: two calls
on identical inputs return identical outputs (the embedding is a pure
function of the five arguments, with no other state). -/
theorem transformations_deterministic (y w : List ℚ) (p : Option (List ℚ))
    (mu_0 mu_1 y2 w2 : List ℚ) (p2 : Option (List ℚ)) (mu_02 mu_12 : List ℚ)
    (hy : y = y2) (hw : w = w2) (hp : p = p2) (h0 : mu_0 = mu_02)
    (h1 : mu_1 = mu_12) :
    ht_te_transformation y w p mu_0 mu_1 = ht_te_transformation y2 w2 p2 mu_02 mu_12
    ∧ aipw_te_transformation y w p mu_0 mu_1
        = aipw_te_transformation y2 w2 p2 mu_02 mu_12
    ∧ ra_te_transformation y w p mu_0 mu_1
        = ra_te_transformation y2 w2 p2 mu_02 mu_12 := by
  subst hy hw hp h0 h1
  exact ⟨rfl, rfl, rfl⟩

/-- C8 witness: two identical calls at a concrete input agree. -/
theorem transformations_deterministic_witness :
    ([(1:ℚ)] : List ℚ) = [(1:ℚ)]
    ∧ ht_te_transformation [1] [1] (some [1/2]) [0] [0]
        = ht_te_transformation [1] [1] (some [1/2]) [0] [0]
    ∧ aipw_te_transformation [1] [1] (some [1/2]) [0] [0]
        = aipw_te_transformation [1] [1] (some [1/2]) [0] [0]
    ∧ ra_te_transformation [1] [1] (some [1/2]) [0] [0]
        = ra_te_transformation [1] [1] (some [1/2]) [0] [0] := by
  have H := transformations_deterministic [1] [1] (some [1/2]) [0] [0]
    [1] [1] (some [1/2]) [0] [0] rfl rfl rfl rfl rfl
  exact ⟨rfl, H.1, H.2.1, H.2.2⟩

/-- C10: none of the transformations validates its inputs: for arbitrary
rational values of `w` (not only 0/1) and `p` (not only in (0,1)), each
function still returns, and its elements follow the same arithmetic formulas
(division here is ℚ's total division, mirroring that the floating-point code
raises no exception on degenerate values). -/
theorem transformations_no_input_validation (y w q mu_0 mu_1 : List ℚ)
    (n i : ℕ) (hy : y.length = n) (hw : w.length = n) (hq : q.length = n)
    (h0 : mu_0.length = n) (h1 : mu_1.length = n) (hi : i < n) :
    ((ht_te_transformation y w (some q) mu_0 mu_1).getD i 0 =
        (w.getD i 0 / q.getD i 0 - (1 - w.getD i 0) / (1 - q.getD i 0))
          * y.getD i 0)
    ∧ ((aipw_te_transformation y w (some q) mu_0 mu_1).getD i 0 =
        (w.getD i 0 / q.getD i 0 - (1 - w.getD i 0) / (1 - q.getD i 0))
            * y.getD i 0
          + ((1 - w.getD i 0 / q.getD i 0) * mu_1.getD i 0
              - (1 - (1 - w.getD i 0) / (1 - q.getD i 0)) * mu_0.getD i 0))
    ∧ ((ra_te_transformation y w (some q) mu_0 mu_1).getD i 0 =
        w.getD i 0 * (y.getD i 0 - mu_0.getD i 0)
          + (1 - w.getD i 0) * (mu_1.getD i 0 - y.getD i 0)) :=
  ⟨ht_getD_some y w q mu_0 mu_1 n i hy hw hq hi,
   aipw_getD_some y w q mu_0 mu_1 n i hy hw hq h0 h1 hi,
   ra_getD y w (some q) mu_0 mu_1 n i hy hw h0 h1 hi⟩

/-- C10 witness: the degenerate input `w = [2]` (not a 0/1 indicator) and
`p = [0]` (a propensity of zero) is accepted: with ℚ's convention `2/0 = 0`
the HT value is `5`, the AIPW value `7` and the RA value `9`. -/
theorem transformations_no_input_validation_witness :
    ([(5:ℚ)] : List ℚ).length = 1 ∧ ([(2:ℚ)] : List ℚ).length = 1
    ∧ ([(0:ℚ)] : List ℚ).length = 1 ∧ ([(1:ℚ)] : List ℚ).length = 1
    ∧ ([(4:ℚ)] : List ℚ).length = 1 ∧ 0 < 1
    ∧ (ht_te_transformation [5] [2] (some [0]) [1] [4]).getD 0 0 = 5
    ∧ (aipw_te_transformation [5] [2] (some [0]) [1] [4]).getD 0 0 = 7
    ∧ (ra_te_transformation [5] [2] (some [0]) [1] [4]).getD 0 0 = 9 := by
  have H := transformations_no_input_validation [5] [2] [0] [1] [4] 1 0
    rfl rfl rfl rfl rfl (by norm_num)
  refine ⟨rfl, rfl, rfl, rfl, rfl, by norm_num, ?_, ?_, ?_⟩
  · rw [H.1]; norm_num [List.getD_cons_zero]
  · rw [H.2.1]; norm_num [List.getD_cons_zero]
  · rw [H.2.2]; norm_num [List.getD_cons_zero]

end RemainingClaims
